import Mathlib

/-!
Verification of the balance and settlement computation engine of a
bill-splitting application.

Monetary values are embedded as rationals (`ℚ`); a scalar field that may be
missing or non-numeric in a stored record is embedded as `Option ℚ`, with
`none` standing for a value whose JavaScript `parseFloat` coercion is `NaN`
(the `safeNumber` helper then resolves it to `0`).  Status maps
(`paidStatus`, `pendingStatus`) and the per-person itemized amounts are
embedded as association lists with first-match lookup; the JavaScript
object-spread override `\x7b...m, [k]: v\x7d` is embedded as prepending, which
shadows older entries under first-match lookup.
-/

/-- First-match lookup in an association list, the embedding of a JavaScript
object property read `m[k]`. -/
def lookupKey {α : Type} : List (String × α) → String → Option α
  | [], _ => none
  | (k, v) :: rest, key => if key = k then some v else lookupKey rest key

/-- Embedding of the object-spread override `\x7b...m, [k]: v\x7d`: the new
binding shadows any older one under `lookupKey`. -/
def setKey {α : Type} (m : List (String × α)) (k : String) (v : α) :
    List (String × α) :=
  (k, v) :: m

/-- Embedding of `safeNumber` from the balances hook: `parseFloat` with a
`NaN` fallback to `0`.  `none` stands for a missing or non-numeric value. -/
def safeNumber (value : Option ℚ) : ℚ :=
  value.getD 0

/-- Embedding of the JavaScript truthiness fallback `s || d` on an optional
string: a missing or empty string resolves to the default. -/
def jsOrString (s : Option String) (d : String) : String :=
  match s with
  | some t => if t = "" then d else t
  | none => d

/-- Embedding of `m?.[k] || false`: lookup of a boolean status with a
missing entry (or a missing map, embedded as `[]`) counting as `false`. -/
def getStatus (m : List (String × Bool)) (k : String) : Bool :=
  (lookupKey m k).getD false

inductive SplitType where
  | equal : SplitType
  | custom : SplitType
deriving DecidableEq, Repr

/-- The `Bill` record of `useData.ts`.  `items` and `timestamp` are not read
by any of the computations verified here and are omitted. -/
structure Bill where
  id : String
  description : String
  amount : Option ℚ
  paidBy : String
  paidByName : Option String
  splitAmong : List String
  splitType : SplitType
  itemizedAmounts : Option (List (String × ℚ))
  taxPercentage : Option ℚ
  tipsPercentage : Option ℚ
  paidStatus : List (String × Bool)
  pendingStatus : List (String × Bool)
deriving DecidableEq, Repr

structure Friend where
  id : String
  name : String
  email : Option String
deriving DecidableEq, Repr

structure UserBalance where
  friendId : String
  friendName : String
  owes : ℚ
  owed : ℚ
  netBalance : ℚ
deriving DecidableEq, Repr

/-- Embedding of `calculateUserShare` from the balances hook (`useBalances`),
the share calculator.  The copy `calculateAmounts` in `DashboardPage.tsx`
is textually identical. -/
def calculateUserShare (bill : Bill) (userId : String) : ℚ :=
  let totalAmount := safeNumber bill.amount
  if totalAmount = 0 ∧ bill.splitType = SplitType.equal then 0
  else if bill.splitType = SplitType.equal then
    let splitCount : ℚ :=
      if bill.splitAmong.length = 0 then 1 else (bill.splitAmong.length : ℚ)
    totalAmount / splitCount
  else
    let taxPercent := safeNumber bill.taxPercentage
    let tipsPercent := safeNumber bill.tipsPercentage
    let itemizedAmounts := bill.itemizedAmounts.getD []
    let itemizedTotal := (itemizedAmounts.map (fun kv => kv.2)).sum
    let taxAmount := itemizedTotal * taxPercent / 100
    let tipsAmount := itemizedTotal * tipsPercent / 100
    let totalTaxAndTips := taxAmount + tipsAmount
    let userItemAmount := safeNumber (lookupKey itemizedAmounts userId)
    if itemizedTotal = 0 then userItemAmount
    else userItemAmount + (userItemAmount / itemizedTotal) * totalTaxAndTips

/-- The coerced total of the per-person itemized amounts, the base for
proportional tax and tip allocation. -/
def itemizedTotalOf (bill : Bill) : ℚ :=
  ((bill.itemizedAmounts.getD []).map (fun kv => kv.2)).sum

/-- The coerced itemized subtotal of one participant (missing entry is 0). -/
def userItemAmountOf (bill : Bill) (userId : String) : ℚ :=
  safeNumber (lookupKey (bill.itemizedAmounts.getD []) userId)

/-- Embedding of `isBillCompleted` from the balances hook (identical copy in
`DashboardPage.tsx`): everyone in `splitAmong` other than the payer has a
confirmed paid status. -/
def isBillCompleted (bill : Bill) : Bool :=
  let peopleWhoPay := bill.splitAmong.filter (fun id => id != bill.paidBy)
  if peopleWhoPay.length = 0 then true
  else peopleWhoPay.all (fun personId => getStatus bill.paidStatus personId)

/-- Embedding of `getFriendName` from the balances hook: look the friend up
in the friend list, with the `|| "Unknown Friend"` truthiness fallback. -/
def getFriendName (friends : List Friend) (friendId : String) : String :=
  match friends.find? (fun f => f.id == friendId) with
  | some f => if f.name = "" then "Unknown Friend" else f.name
  | none => "Unknown Friend"

/-- The accumulator of the balance aggregator: the JavaScript object
`balanceMap` embedded as a partial map from friend id to `UserBalance`. -/
def BalanceMap : Type := String → Option UserBalance

/-- A fresh `UserBalance` entry as initialized by the balances hook. -/
def initBalance (friendId : String) (friendName : String) : UserBalance :=
  { friendId := friendId, friendName := friendName,
    owes := 0, owed := 0, netBalance := 0 }

/-- The body of the inner `splitAmong.forEach` loop of the balances hook in
the case where the current user paid the bill: one participant is examined
and, when they still owe, their `owes` accumulator grows by their share. -/
def caseAStep (friends : List Friend) (bill : Bill) (userId : String)
    (m : BalanceMap) (personId : String) : BalanceMap :=
  if personId = userId then m
  else if getStatus bill.paidStatus personId then m
  else
    let entry := (m personId).getD (initBalance personId (getFriendName friends personId))
    let personShare := calculateUserShare bill personId
    fun q => if q = personId then some { entry with owes := entry.owes + personShare } else m q

/-- The body of the `bills.forEach` loop of the balances hook: one bill is
folded into the balance map. -/
def processBill (friends : List Friend) (userId : String)
    (m : BalanceMap) (bill : Bill) : BalanceMap :=
  if isBillCompleted bill then m
  else if userId ∈ bill.splitAmong then
    if bill.paidBy = userId then
      bill.splitAmong.foldl (caseAStep friends bill userId) m
    else
      let paidByUserId := bill.paidBy
      let entry := (m paidByUserId).getD
        (initBalance paidByUserId (jsOrString bill.paidByName "Unknown"))
      let userShare := calculateUserShare bill userId
      let isPaid := getStatus bill.paidStatus userId
      let entry2 := if isPaid then entry else { entry with owed := entry.owed + userShare }
      fun q => if q = paidByUserId then some entry2 else m q
  else m

/-- Embedding of the `useBalances` hook body (`computeBalances`): fold every
bill into the balance map, then set `netBalance = owes - owed` on every
entry.  A missing user id yields the empty map. -/
def computeBalances (bills : List Bill) (friends : List Friend)
    (userId : Option String) : BalanceMap :=
  match userId with
  | none => fun _ => none
  | some uid =>
      let m := bills.foldl (processBill friends uid) (fun _ => none)
      fun q => (m q).map (fun b => { b with netBalance := b.owes - b.owed })

/-- Per-person equal-split amount of both in-view `BillDetailPage` copies:
`bill.amount / bill.splitAmong.length` (the amount is typed as a plain
number there; its numeric value is the `safeNumber` of the embedded
optional field). -/
def detailEqualShare (bill : Bill) : ℚ :=
  safeNumber bill.amount / (bill.splitAmong.length : ℚ)

/-- Per-person custom-split amount of `calculateAmounts` in the
`BillDetailPage` component: item subtotal plus a proportional part of tax
and tips derived from the itemized total, the proportional part applying
only when the itemized total is positive. -/
def detailCustomShare (bill : Bill) (personId : String) : ℚ :=
  let itemizedTotal := ((bill.itemizedAmounts.getD []).map (fun kv => kv.2)).sum
  let taxAmount := itemizedTotal * ((bill.taxPercentage).getD 0) / 100
  let tipsAmount := itemizedTotal * ((bill.tipsPercentage).getD 0) / 100
  let totalTaxAndTips := taxAmount + tipsAmount
  let itemAmount := (lookupKey (bill.itemizedAmounts.getD []) personId).getD 0
  let share := if 0 < itemizedTotal then (itemAmount / itemizedTotal) * totalTaxAndTips else 0
  itemAmount + share

/-- The per-person amounts computed by `calculateAmounts` in the
`BillDetailPage` component (the bill-detail in-view copy of the share
calculator): one `(personId, amount)` pair per member of `splitAmong`. -/
def detailCalculateAmounts (bill : Bill) : List (String × ℚ) :=
  if bill.splitType = SplitType.equal then
    bill.splitAmong.map (fun personId => (personId, detailEqualShare bill))
  else
    bill.splitAmong.map (fun personId => (personId, detailCustomShare bill personId))

/-- Per-person custom-split amount of `calculateAmounts` in the second
`BillDetailPage` copy embedded in `AddBillPage.tsx`: it derives the tax and
tip amounts from `bill.amount` (`baseAmount`), not from the itemized
total. -/
def addBillCustomShare (bill : Bill) (personId : String) : ℚ :=
  let baseAmount := safeNumber bill.amount
  let itemizedTotal := ((bill.itemizedAmounts.getD []).map (fun kv => kv.2)).sum
  let taxAmount := baseAmount * ((bill.taxPercentage).getD 0) / 100
  let tipsAmount := baseAmount * ((bill.tipsPercentage).getD 0) / 100
  let totalTaxAndTips := taxAmount + tipsAmount
  let itemAmount := (lookupKey (bill.itemizedAmounts.getD []) personId).getD 0
  let share := if 0 < itemizedTotal then (itemAmount / itemizedTotal) * totalTaxAndTips else 0
  itemAmount + share

/-- The per-person amounts computed by `calculateAmounts` in the second
`BillDetailPage` copy embedded in `AddBillPage.tsx`. -/
def addBillCalculateAmounts (bill : Bill) : List (String × ℚ) :=
  if bill.splitType = SplitType.equal then
    bill.splitAmong.map (fun personId => (personId, detailEqualShare bill))
  else
    bill.splitAmong.map (fun personId => (personId, addBillCustomShare bill personId))

/-- The input record of `createBill` in `useData.ts`. -/
structure BillData where
  description : String
  amount : ℚ
  paidBy : String
  splitAmong : List String
  splitType : SplitType
  itemizedAmounts : Option (List (String × ℚ))
  taxPercentage : Option ℚ
  tipsPercentage : Option ℚ
deriving DecidableEq, Repr

/-- The document written by `createBill` (identifier and timestamp are
assigned by the storage collaborator and omitted). -/
structure CreatedBill where
  description : String
  amount : ℚ
  paidBy : String
  paidByName : String
  splitAmong : List String
  splitType : SplitType
  itemizedAmounts : Option (List (String × ℚ))
  taxPercentage : Option ℚ
  tipsPercentage : Option ℚ
  paidStatus : List (String × Bool)
  pendingStatus : List (String × Bool)
deriving DecidableEq, Repr

/-- Embedding of `createBill` from `useData.ts`.  `user` is the acting
authenticated user (`none` when unauthenticated), `payerLookup` the result
of the external lookup of the payer's stored display name. -/
def createBill (user : Option String) (payerLookup : Option String)
    (billData : BillData) : Except String CreatedBill :=
  match user with
  | none => Except.error "User not authenticated"
  | some _ =>
      let paidByName := jsOrString payerLookup "Unknown"
      let paidStatus := billData.splitAmong.foldl
        (fun m uid => setKey m uid (uid == billData.paidBy)) []
      let pendingStatus := billData.splitAmong.foldl
        (fun m uid => setKey m uid false) []
      Except.ok
        { description := billData.description
          amount := billData.amount
          paidBy := billData.paidBy
          paidByName := paidByName
          splitAmong := billData.splitAmong
          splitType := billData.splitType
          itemizedAmounts := billData.itemizedAmounts
          taxPercentage := billData.taxPercentage
          tipsPercentage := billData.tipsPercentage
          paidStatus := paidStatus
          pendingStatus := pendingStatus }

/-- The single update payload submitted by `handleConfirmPaid` in the
bill-detail view: both full status maps, replaced together in one write. -/
structure StatusUpdate where
  paidStatus : List (String × Bool)
  pendingStatus : List (String × Bool)
deriving DecidableEq, Repr

/-- Embedding of `handleConfirmPaid`: read the bill's current status maps,
override the one affected participant entry, and submit both full maps as
one update. -/
def confirmPaidUpdate (bill : Bill) (personId : String) : StatusUpdate :=
  let currentPaid := bill.paidStatus
  let currentPending := bill.pendingStatus
  let newPaid := setKey currentPaid personId true
  let newPending := setKey currentPending personId false
  { paidStatus := newPaid, pendingStatus := newPending }

/-- Concrete equal-split bill: amount 90 split among U, F1, F2, paid by U. -/
def c1Bill : Bill :=
  { id := "A", description := "Bill A", amount := some 90, paidBy := "U",
    paidByName := none, splitAmong := ["U", "F1", "F2"],
    splitType := SplitType.equal, itemizedAmounts := none,
    taxPercentage := none, tipsPercentage := none,
    paidStatus := [("U", true)], pendingStatus := [] }

/-- Concrete custom-split bill: itemized subtotals 40 and 60, tax 10%,
tips 5%. -/
def c2Bill : Bill :=
  { id := "B", description := "Bill B", amount := some 115, paidBy := "Q",
    paidByName := none, splitAmong := ["P", "Q"],
    splitType := SplitType.custom,
    itemizedAmounts := some [("P", 40), ("Q", 60)],
    taxPercentage := some 10, tipsPercentage := some 5,
    paidStatus := [], pendingStatus := [] }

/-- Concrete bill for the completion evaluator: F1 is the only non-payer
and has confirmed paid status. -/
def c3Bill : Bill :=
  { id := "C", description := "Bill C", amount := some 20, paidBy := "U",
    paidByName := none, splitAmong := ["U", "F1"],
    splitType := SplitType.equal, itemizedAmounts := none,
    taxPercentage := none, tipsPercentage := none,
    paidStatus := [("F1", true)], pendingStatus := [] }

/-- Characterization of the equal-split branch of the share calculator:
the coerced total divided by `max 1 |splitAmong|` (the zero-total guard is
absorbed, since `0 / n = 0`). -/
theorem calculateUserShare_equal (bill : Bill)
    (h : bill.splitType = SplitType.equal) :
    ∀ p : String, calculateUserShare bill p =
      safeNumber bill.amount / ((max 1 bill.splitAmong.length : ℕ) : ℚ) := by
  intro p
  unfold calculateUserShare
  rcases eq_or_ne (safeNumber bill.amount) 0 with h0 | h0
  · simp [h, h0]
  · rcases Nat.eq_zero_or_pos bill.splitAmong.length with hl | hl
    · simp [h, h0, hl]
    · have hmax : max 1 bill.splitAmong.length = bill.splitAmong.length :=
        Nat.max_eq_right hl
      have hne : bill.splitAmong.length ≠ 0 := Nat.pos_iff_ne_zero.mp hl
      simp [h, h0, hne, hmax]

/-- C1: for an equal-split bill every participant's share is the coerced
total divided by `max 1 |splitAmong|`; a zero coerced total gives share 0;
and with `n ≥ 1` participants every share is `A / n` and the shares summed
over `splitAmong` give back `A`. -/
theorem C1_equal_split_share (bill : Bill)
    (h : bill.splitType = SplitType.equal) :
    (∀ p : String, calculateUserShare bill p =
        safeNumber bill.amount / ((max 1 bill.splitAmong.length : ℕ) : ℚ)) ∧
    (safeNumber bill.amount = 0 → ∀ p : String, calculateUserShare bill p = 0) ∧
    (1 ≤ bill.splitAmong.length →
      (∀ p : String, calculateUserShare bill p =
          safeNumber bill.amount / (bill.splitAmong.length : ℚ)) ∧
      (bill.splitAmong.map (fun p => calculateUserShare bill p)).sum =
        safeNumber bill.amount) := by
  have hshare := calculateUserShare_equal bill h
  refine ⟨hshare, fun h0 p => ?_, fun hn => ?_⟩
  · rw [hshare p, h0, zero_div]
  · have hmax : max 1 bill.splitAmong.length = bill.splitAmong.length :=
      Nat.max_eq_right hn
    have hper : ∀ p : String, calculateUserShare bill p =
        safeNumber bill.amount / (bill.splitAmong.length : ℚ) := by
      intro p; rw [hshare p, hmax]
    refine ⟨hper, ?_⟩
    have hconst : bill.splitAmong.map (fun p => calculateUserShare bill p) =
        List.replicate bill.splitAmong.length
          (safeNumber bill.amount / (bill.splitAmong.length : ℚ)) := by
      rw [List.eq_replicate_iff]
      exact ⟨by simp, fun b hb => by
        rcases List.mem_map.mp hb with ⟨p, _, rfl⟩
        exact hper p⟩
    rw [hconst, List.sum_replicate, nsmul_eq_mul]
    have hlen : ((bill.splitAmong.length : ℚ)) ≠ 0 := by
      exact_mod_cast Nat.pos_iff_ne_zero.mp hn
    field_simp

/-- C1 witness: on the concrete bill of amount 90 split among three
participants, the share of F1 is 30 and the shares sum back to 90. -/
theorem C1_equal_split_share_witness :
    calculateUserShare c1Bill "F1" = 30 ∧
    (c1Bill.splitAmong.map (fun p => calculateUserShare c1Bill p)).sum = 90 := by
  have h := (C1_equal_split_share c1Bill rfl).2.2 (by norm_num [c1Bill])
  constructor
  · rw [h.1 "F1"]; norm_num [c1Bill, safeNumber]
  · rw [h.2]; norm_num [c1Bill, safeNumber]

/-- Characterization of the custom-split branch of the share calculator:
the participant subtotal plus a proportional part of the tax and tip
amounts, with a zero itemized total short-circuiting to the subtotal. -/
theorem calculateUserShare_custom (bill : Bill)
    (h : bill.splitType = SplitType.custom) :
    ∀ p : String, calculateUserShare bill p =
      if itemizedTotalOf bill = 0 then userItemAmountOf bill p
      else userItemAmountOf bill p +
        (userItemAmountOf bill p / itemizedTotalOf bill) *
          (itemizedTotalOf bill * safeNumber bill.taxPercentage / 100 +
           itemizedTotalOf bill * safeNumber bill.tipsPercentage / 100) := by
  intro p
  unfold calculateUserShare itemizedTotalOf userItemAmountOf
  simp [h]

/-- C2: for a custom-split bill the share of `p` is the itemized subtotal
of `p` plus a proportional part of the tax and tip amounts (both derived
from the itemized total); a zero itemized total yields the subtotal alone,
and a missing itemized entry behaves as 0. -/
theorem C2_custom_split_share (bill : Bill)
    (h : bill.splitType = SplitType.custom) :
    (∀ p : String, calculateUserShare bill p =
        if itemizedTotalOf bill = 0 then userItemAmountOf bill p
        else userItemAmountOf bill p +
          (userItemAmountOf bill p / itemizedTotalOf bill) *
            (itemizedTotalOf bill * safeNumber bill.taxPercentage / 100 +
             itemizedTotalOf bill * safeNumber bill.tipsPercentage / 100)) ∧
    (∀ p : String, lookupKey (bill.itemizedAmounts.getD []) p = none →
        userItemAmountOf bill p = 0) := by
  constructor
  · exact calculateUserShare_custom bill h
  · intro p hp
    unfold userItemAmountOf
    rw [hp]
    rfl

/-- C2 witness: on the concrete custom bill (subtotals 40 and 60, tax 10%,
tips 5%) the share of P is 40 + (40/100)·15 = 46. -/
theorem C2_custom_split_share_witness : calculateUserShare c2Bill "P" = 46 := by
  have h := (C2_custom_split_share c2Bill rfl).1 "P"
  rw [h]
  norm_num [itemizedTotalOf, userItemAmountOf, safeNumber, lookupKey, c2Bill]

/-- C3: a bill is completed exactly when every participant other than the
payer has confirmed paid status (missing entries count as unpaid); in
particular a bill whose only stakeholder is the payer is completed, and the
result never depends on `pendingStatus`. -/
theorem C3_completion (bill : Bill) :
    (isBillCompleted bill = true ↔
      ∀ p ∈ bill.splitAmong, p ≠ bill.paidBy →
        getStatus bill.paidStatus p = true) ∧
    ((∀ p ∈ bill.splitAmong, p = bill.paidBy) → isBillCompleted bill = true) ∧
    (∀ ps : List (String × Bool),
      isBillCompleted { bill with pendingStatus := ps } = isBillCompleted bill) := by
  have hall : isBillCompleted bill =
      (bill.splitAmong.filter (fun id => id != bill.paidBy)).all
        (fun personId => getStatus bill.paidStatus personId) := by
    unfold isBillCompleted
    rcases eq_or_ne (bill.splitAmong.filter (fun id => id != bill.paidBy)).length 0
      with hl | hl
    · rw [List.length_eq_zero] at hl
      simp [hl]
    · simp [hl]
  have hiff : isBillCompleted bill = true ↔
      ∀ p ∈ bill.splitAmong, p ≠ bill.paidBy →
        getStatus bill.paidStatus p = true := by
    rw [hall, List.all_eq_true]
    constructor
    · intro hf p hp hne
      exact hf p (List.mem_filter.mpr ⟨hp, bne_iff_ne.mpr hne⟩)
    · intro hf p hp
      rcases List.mem_filter.mp hp with ⟨hmem, hbne⟩
      exact hf p hmem (bne_iff_ne.mp hbne)
  refine ⟨hiff, fun honly => ?_, fun ps => rfl⟩
  exact hiff.mpr (fun p hp hne => absurd (honly p hp) hne)

/-- C3 witness: the concrete bill whose single non-payer F1 has paid is
completed, and stays so under an arbitrary pending map. -/
theorem C3_completion_witness :
    isBillCompleted c3Bill = true ∧
    isBillCompleted { c3Bill with pendingStatus := [("F1", true)] } =
      isBillCompleted c3Bill := by
  have h := C3_completion c3Bill
  exact ⟨h.1.mpr (by decide), h.2.2 [("F1", true)]⟩

/-- One step of the payer-case loop leaves every other key unchanged. -/
theorem caseAStep_frame (friends : List Friend) (bill : Bill) (userId : String)
    (m : BalanceMap) (personId q : String) (h : q ≠ personId) :
    caseAStep friends bill userId m personId q = m q := by
  unfold caseAStep
  split_ifs <;> simp [h]

/-- The payer-case loop leaves the user themself and already-paid
participants unchanged. -/
theorem foldl_caseA_untouched (friends : List Friend) (bill : Bill)
    (userId q : String)
    (hq : q = userId ∨ getStatus bill.paidStatus q = true) :
    ∀ (l : List String) (m : BalanceMap),
      (l.foldl (caseAStep friends bill userId) m) q = m q := by
  intro l
  induction l with
  | nil => intro m; rfl
  | cons a t ih =>
      intro m
      rw [List.foldl_cons, ih]
      rcases eq_or_ne q a with rfl | hne
      · unfold caseAStep
        rcases hq with rfl | hpaid
        · simp
        · simp [hpaid]
      · exact caseAStep_frame friends bill userId m a q hne

/-- The payer-case loop does not touch keys outside the participant list. -/
theorem foldl_caseA_not_mem (friends : List Friend) (bill : Bill)
    (userId q : String) :
    ∀ (l : List String) (m : BalanceMap), q ∉ l →
      (l.foldl (caseAStep friends bill userId) m) q = m q := by
  intro l
  induction l with
  | nil => intro m _; rfl
  | cons a t ih =>
      intro m hq
      rw [List.foldl_cons, ih _ (fun h => hq (List.mem_cons_of_mem a h))]
      exact caseAStep_frame friends bill userId m a q
        (fun h => hq (h ▸ List.mem_cons_self a t))

/-- On a duplicate-free participant list, the payer-case loop updates one
unpaid participant exactly once: the entry's `owes` grows by that person's
share and nothing else about the entry changes. -/
theorem foldl_caseA_hit (friends : List Friend) (bill : Bill)
    (userId q : String) (hne : q ≠ userId)
    (hunpaid : getStatus bill.paidStatus q = false) :
    ∀ (l : List String) (m : BalanceMap), l.Nodup → q ∈ l →
      (l.foldl (caseAStep friends bill userId) m) q =
        some { (m q).getD (initBalance q (getFriendName friends q)) with
               owes := ((m q).getD (initBalance q (getFriendName friends q))).owes
                        + calculateUserShare bill q } := by
  intro l
  induction l with
  | nil => intro m _ hq; exact absurd hq (List.not_mem_nil q)
  | cons a t ih =>
      intro m hnd hq
      rcases List.nodup_cons.mp hnd with ⟨hat, hndt⟩
      rw [List.foldl_cons]
      rcases eq_or_ne q a with rfl | hqa
      · rw [foldl_caseA_not_mem friends bill userId q t _ hat]
        unfold caseAStep
        simp [hne, hunpaid]
      · rcases List.mem_cons.mp hq with rfl | hqt
        · exact absurd rfl hqa
        · rw [ih _ hndt hqt,
            caseAStep_frame friends bill userId m a q hqa]

/-- Key characterization of absence after the payer-case loop: a key is
still absent exactly when it was absent before and the loop had no reason
to touch it. -/
theorem foldl_caseA_none_iff (friends : List Friend) (bill : Bill)
    (userId q : String) :
    ∀ (l : List String) (m : BalanceMap),
      (l.foldl (caseAStep friends bill userId) m) q = none ↔
        (m q = none ∧ (q = userId ∨ getStatus bill.paidStatus q = true ∨ q ∉ l)) := by
  intro l
  induction l with
  | nil => intro m; simp
  | cons a t ih =>
      intro m
      rw [List.foldl_cons, ih]
      rcases eq_or_ne q a with rfl | hqa
      · by_cases hu : q = userId
        · unfold caseAStep
          simp [hu]
        · by_cases hpaid : getStatus bill.paidStatus q = true
          · unfold caseAStep
            simp [hu, hpaid]
          · have hstep : caseAStep friends bill userId m q q =
                some { (m q).getD (initBalance q (getFriendName friends q)) with
                       owes := ((m q).getD (initBalance q (getFriendName friends q))).owes
                                + calculateUserShare bill q } := by
              unfold caseAStep
              simp [hu, eq_false_of_ne_true hpaid]
            rw [hstep]
            simp [hu, hpaid, List.mem_cons]
      · rw [caseAStep_frame friends bill userId m a q hqa]
        simp [List.mem_cons, hqa]

/-- Concrete bill for the payer case: amount 90 split equally among U, F1,
F2, paid by U, F1 and F2 still unpaid. -/
def c4Bill : Bill :=
  { id := "A4", description := "Bill A", amount := some 90, paidBy := "U",
    paidByName := none, splitAmong := ["U", "F1", "F2"],
    splitType := SplitType.equal, itemizedAmounts := none,
    taxPercentage := none, tipsPercentage := none,
    paidStatus := [("U", true)], pendingStatus := [] }

/-- C4: folding a non-completed bill paid by the user into the balance map
adds each unpaid co-participant's share to that participant's `owes`
accumulator (creating the entry at zero when absent and changing nothing
else about it), and leaves participants who already paid untouched. -/
theorem C4_payer_case_owes (friends : List Friend) (userId : String)
    (m : BalanceMap) (bill : Bill)
    (hc : isBillCompleted bill = false) (hp : bill.paidBy = userId)
    (hmem : userId ∈ bill.splitAmong) (hnd : bill.splitAmong.Nodup) :
    ∀ p ∈ bill.splitAmong, p ≠ userId →
      (getStatus bill.paidStatus p = false →
        processBill friends userId m bill p =
          some { (m p).getD (initBalance p (getFriendName friends p)) with
                 owes := ((m p).getD (initBalance p (getFriendName friends p))).owes
                          + calculateUserShare bill p }) ∧
      (getStatus bill.paidStatus p = true →
        processBill friends userId m bill p = m p) := by
  intro p hpmem hpne
  have hproc : processBill friends userId m bill =
      bill.splitAmong.foldl (caseAStep friends bill userId) m := by
    unfold processBill
    simp [hc, hmem, hp]
  constructor
  · intro hunpaid
    rw [hproc]
    exact foldl_caseA_hit friends bill userId p hpne hunpaid
      bill.splitAmong m hnd hpmem
  · intro hpaid
    rw [hproc]
    exact foldl_caseA_untouched friends bill userId p (Or.inr hpaid)
      bill.splitAmong m

/-- C4 witness: on the concrete 90-split-three bill paid by U, folding into
the empty map gives F1 an `owes` of 30, and the full aggregation also
reports 30 for F1. -/
theorem C4_payer_case_owes_witness :
    processBill [] "U" (fun _ => none) c4Bill "F1" =
      some { friendId := "F1", friendName := "Unknown Friend",
             owes := 0 + 30, owed := 0, netBalance := 0 } ∧
    (computeBalances [c4Bill] [] (some "U") "F1").map (fun b => b.owes) =
      some 30 := by
  have h := (C4_payer_case_owes [] "U" (fun _ => none) c4Bill rfl rfl
      (by decide) (by decide) "F1" (by decide) (by decide)).1 (by decide)
  have hmap : computeBalances [c4Bill] [] (some "U") "F1" =
      (processBill [] "U" (fun _ => none) c4Bill "F1").map
        (fun b => { b with netBalance := b.owes - b.owed }) := rfl
  constructor
  · rw [h]
    norm_num [initBalance, getFriendName, calculateUserShare, safeNumber, c4Bill]
  · rw [hmap, h]
    norm_num [initBalance, getFriendName, calculateUserShare, safeNumber, c4Bill]

/-- Concrete bill for the non-payer case: amount 50 split equally between U
and F2, paid by F2, U still unpaid. -/
def c5Bill : Bill :=
  { id := "A5", description := "Bill C", amount := some 50, paidBy := "F2",
    paidByName := some "Fred", splitAmong := ["U", "F2"],
    splitType := SplitType.equal, itemizedAmounts := none,
    taxPercentage := none, tipsPercentage := none,
    paidStatus := [("F2", true)], pendingStatus := [("U", true)] }

/-- C5: folding a non-completed bill paid by someone else into the balance
map adds the user's share to the payer's `owed` accumulator exactly when
the user's own paid flag is false — the pending flag is irrelevant to the
whole fold — and every entry of the final aggregation satisfies
`netBalance = owes - owed`. -/
theorem C5_nonpayer_case_owed (friends : List Friend) (userId : String)
    (m : BalanceMap) (bill : Bill)
    (hc : isBillCompleted bill = false) (hp : bill.paidBy ≠ userId)
    (hmem : userId ∈ bill.splitAmong) :
    (getStatus bill.paidStatus userId = false →
      processBill friends userId m bill bill.paidBy =
        some { (m bill.paidBy).getD
                 (initBalance bill.paidBy (jsOrString bill.paidByName "Unknown")) with
               owed := ((m bill.paidBy).getD
                 (initBalance bill.paidBy (jsOrString bill.paidByName "Unknown"))).owed
                  + calculateUserShare bill userId }) ∧
    (getStatus bill.paidStatus userId = true →
      processBill friends userId m bill bill.paidBy =
        some ((m bill.paidBy).getD
          (initBalance bill.paidBy (jsOrString bill.paidByName "Unknown")))) ∧
    (∀ ps : List (String × Bool),
      processBill friends userId m { bill with pendingStatus := ps } =
        processBill friends userId m bill) ∧
    (∀ (bills : List Bill) (friends2 : List Friend) (uid q : String)
        (b : UserBalance),
      computeBalances bills friends2 (some uid) q = some b →
        b.netBalance = b.owes - b.owed) := by
  refine ⟨?_, ?_, fun ps => rfl, ?_⟩
  · intro hunpaid
    unfold processBill
    simp [hc, hmem, hp, hunpaid]
  · intro hpaid
    unfold processBill
    simp [hc, hmem, hp, hpaid]
  · intro bills friends2 uid q b hb
    unfold computeBalances at hb
    rcases Option.map_eq_some'.mp hb with ⟨b0, _, rfl⟩
    rfl

/-- C5 witness: on the concrete bill paid by F2 with U unpaid (and even
marked pending), folding into the empty map records an `owed` of 25 toward
F2, and the aggregated entry has `netBalance = owes - owed = -25`. -/
theorem C5_nonpayer_case_owed_witness :
    processBill [] "U" (fun _ => none) c5Bill "F2" =
      some { friendId := "F2", friendName := "Fred",
             owes := 0, owed := 0 + 25, netBalance := 0 } ∧
    computeBalances [c5Bill] [] (some "U") "F2" =
      some { friendId := "F2", friendName := "Fred",
             owes := 0, owed := 0 + 25, netBalance := -25 } := by
  have h := C5_nonpayer_case_owed [] "U" (fun _ => none) c5Bill rfl
      (by decide) (by decide)
  have h1 := h.1 (by decide)
  have hpb : c5Bill.paidBy = "F2" := rfl
  rw [hpb] at h1
  have hmap : computeBalances [c5Bill] [] (some "U") "F2" =
      (processBill [] "U" (fun _ => none) c5Bill "F2").map
        (fun b => { b with netBalance := b.owes - b.owed }) := rfl
  have hfred : ("Fred" : String) ≠ "" := by decide
  constructor
  · rw [h1]
    norm_num [initBalance, jsOrString, calculateUserShare, safeNumber, c5Bill, hfred]
  · rw [hmap, h1]
    norm_num [initBalance, jsOrString, calculateUserShare, safeNumber, c5Bill, hfred]

/-- A bill gives the aggregator a reason to create or touch the entry of
`q`: the bill is outstanding, the user has a stake, and either the user
paid and `q` is an unpaid co-participant, or `q` is the payer.  This
mirrors exactly the conditions under which the fold writes to `q`. -/
def billTouches (userId : String) (bill : Bill) (q : String) : Bool :=
  if isBillCompleted bill then false
  else if userId ∈ bill.splitAmong then
    if bill.paidBy = userId then
      decide (q ∈ bill.splitAmong) && !(q == userId) && !(getStatus bill.paidStatus q)
    else bill.paidBy == q
  else false

/-- Folding one bill leaves a key absent exactly when it was absent and the
bill gives no reason to touch it. -/
theorem processBill_none_iff (friends : List Friend) (userId : String)
    (m : BalanceMap) (bill : Bill) (q : String) :
    processBill friends userId m bill q = none ↔
      (m q = none ∧ billTouches userId bill q = false) := by
  unfold processBill billTouches
  by_cases hc : isBillCompleted bill
  · simp [hc]
  · by_cases hmem : userId ∈ bill.splitAmong
    · by_cases hpb : bill.paidBy = userId
      · rw [if_neg hc, if_pos hmem, if_pos hpb, if_neg hc, if_pos hmem,
          if_pos hpb, foldl_caseA_none_iff]
        constructor
        · rintro ⟨hm, hcase⟩
          refine ⟨hm, ?_⟩
          rcases hcase with rfl | hpaid | hnotmem
          · simp
          · simp [hpaid]
          · simp [hnotmem]
        · rintro ⟨hm, htf⟩
          refine ⟨hm, ?_⟩
          by_cases hu : q = userId
          · exact Or.inl hu
          · by_cases hpaid : getStatus bill.paidStatus q = true
            · exact Or.inr (Or.inl hpaid)
            · refine Or.inr (Or.inr ?_)
              intro hqmem
              simp [hqmem, hu, hpaid] at htf
      · rw [if_neg hc, if_pos hmem, if_neg hpb, if_neg hc, if_pos hmem,
          if_neg hpb]
        by_cases hq : q = bill.paidBy
        · subst hq
          simp
        · have hqb : (bill.paidBy == q) = false := by
            simp [Ne.symm hq]
          simp [hq, hqb]
    · simp [hc, hmem]

/-- Folding a bill collection leaves a key absent exactly when it started
absent and no bill in the collection touches it. -/
theorem foldl_processBill_none_iff (friends : List Friend) (uid q : String) :
    ∀ (bills : List Bill) (m : BalanceMap),
      (bills.foldl (processBill friends uid) m) q = none ↔
        (m q = none ∧ ∀ b ∈ bills, billTouches uid b q = false) := by
  intro bills
  induction bills with
  | nil => intro m; simp
  | cons b bs ih =>
      intro m
      rw [List.foldl_cons, ih, processBill_none_iff]
      simp only [List.forall_mem_cons]
      tauto

/-- Concrete outstanding bill paid by F2 in which the user U has already
paid their own share (F3 has not, so the bill is not completed). -/
def c6Bill : Bill :=
  { id := "C6", description := "Dinner", amount := some 30, paidBy := "F2",
    paidByName := none, splitAmong := ["U", "F2", "F3"],
    splitType := SplitType.equal, itemizedAmounts := none,
    taxPercentage := none, tipsPercentage := none,
    paidStatus := [("U", true), ("F2", true)], pendingStatus := [] }

/-- C6 counterexample: on `c6Bill` every share of the payer F2 toward the
user is settled (the user's own share is paid and F2 owes the user
nothing), yet the aggregation returns a present, zero-valued entry for F2
instead of no entry. -/
theorem C6_zero_entry_counterexample :
    isBillCompleted c6Bill = false ∧
    getStatus c6Bill.paidStatus "U" = true ∧
    computeBalances [c6Bill] [] (some "U") "F2" =
      some { friendId := "F2", friendName := "Unknown",
             owes := 0, owed := 0, netBalance := 0 } := by
  refine ⟨by decide, by decide, ?_⟩
  have hmap : computeBalances [c6Bill] [] (some "U") "F2" =
      (processBill [] "U" (fun _ => none) c6Bill "F2").map
        (fun b => { b with netBalance := b.owes - b.owed }) := rfl
  have hstep : processBill [] "U" (fun _ => none) c6Bill "F2" =
      some (initBalance "F2" "Unknown") := by
    have hc : isBillCompleted c6Bill = false := by decide
    have hmem : "U" ∈ c6Bill.splitAmong := by decide
    have hpb : c6Bill.paidBy ≠ "U" := by decide
    have hpaid : getStatus c6Bill.paidStatus "U" = true := by decide
    unfold processBill
    simp only [hc, hmem, hpb, hpaid, jsOrString, Bool.false_eq_true,
      if_false, if_true, ite_true, ite_false, if_neg hpb, if_pos hmem]
    exact if_pos rfl
  rw [hmap, hstep]
  norm_num [initBalance]

/-- Completed concrete bill: the only non-payer U has paid. -/
def c6DoneBill : Bill :=
  { id := "C6b", description := "Lunch", amount := some 10, paidBy := "F2",
    paidByName := none, splitAmong := ["U", "F2"],
    splitType := SplitType.equal, itemizedAmounts := none,
    taxPercentage := none, tipsPercentage := none,
    paidStatus := [("U", true)], pendingStatus := [] }

/-- C6 amended: completed bills contribute no entries or amounts to the
aggregation, and a friend is absent from the result exactly when no
outstanding bill involving the user names them as the payer or as an
unpaid co-debtor; in particular the payer of an outstanding bill the user
participates in receives an entry even when the user's own share is
already settled (so such an entry may be present with zero owes and owed). -/
theorem C6_outstanding_only (friends : List Friend) (uid : String) :
    (∀ (bill : Bill) (m : BalanceMap) (q : String),
        isBillCompleted bill = true → processBill friends uid m bill q = m q) ∧
    (∀ (bills : List Bill) (q : String),
        computeBalances bills friends (some uid) q = none ↔
          ∀ b ∈ bills, billTouches uid b q = false) := by
  constructor
  · intro bill m q hcompleted
    unfold processBill
    simp [hcompleted]
  · intro bills q
    have hmap : computeBalances bills friends (some uid) q =
        ((bills.foldl (processBill friends uid) (fun _ => none)) q).map
          (fun b => { b with netBalance := b.owes - b.owed }) := rfl
    rw [hmap, Option.map_eq_none', foldl_processBill_none_iff]
    simp

/-- C6 witness: a completed bill folds to the unchanged (empty) map, and on
the singleton collection holding it the settled payer F2 has no entry at
all in the aggregation. -/
theorem C6_outstanding_only_witness :
    processBill [] "U" (fun _ => none) c6DoneBill "F2" = none ∧
    computeBalances [c6DoneBill] [] (some "U") "F2" = none := by
  have h := C6_outstanding_only [] "U"
  exact ⟨h.1 c6DoneBill (fun _ => none) "F2" (by decide),
    (h.2 [c6DoneBill] "F2").mpr (by decide)⟩

/-- Membership in a keyed map list determines the carried value. -/
theorem mem_map_pair (g : String → ℚ) (l : List String) (p : String) (x : ℚ) :
    (p, x) ∈ l.map (fun pid => (pid, g pid)) ↔ (p ∈ l ∧ x = g p) := by
  constructor
  · intro h
    rcases List.mem_map.mp h with ⟨p2, hp2, hpair⟩
    rcases Prod.mk.inj hpair with ⟨rfl, rfl⟩
    exact ⟨hp2, rfl⟩
  · rintro ⟨hp, rfl⟩
    exact List.mem_map.mpr ⟨p, hp, rfl⟩

/-- The equal-split per-person amount of the in-view copies agrees with the
aggregator share whenever the participant list is non-empty. -/
theorem detailEqualShare_eq (bill : Bill) (p : String)
    (heq : bill.splitType = SplitType.equal)
    (hne : bill.splitAmong.length ≠ 0) :
    detailEqualShare bill = calculateUserShare bill p := by
  unfold detailEqualShare calculateUserShare
  rcases eq_or_ne (safeNumber bill.amount) 0 with h0 | h0
  · simp [heq, h0]
  · simp [heq, h0, hne]

/-- The bill-detail custom per-person amount agrees with the aggregator
share whenever the itemized total is non-negative. -/
theorem detailCustomShare_eq (bill : Bill) (p : String)
    (hcust : bill.splitType = SplitType.custom)
    (hT : 0 ≤ itemizedTotalOf bill) :
    detailCustomShare bill p = calculateUserShare bill p := by
  rw [calculateUserShare_custom bill hcust p]
  unfold detailCustomShare
  rcases eq_or_ne (itemizedTotalOf bill) 0 with hT0 | hT0
  · rw [if_pos hT0]
    have hnot : ¬(0 < ((bill.itemizedAmounts.getD []).map (fun kv => kv.2)).sum) := by
      intro hlt
      exact absurd hT0 (ne_of_gt hlt)
    simp only [hnot, if_false, ite_false]
    unfold userItemAmountOf safeNumber
    simp
  · rw [if_neg hT0]
    have hTpos : (0 : ℚ) < ((bill.itemizedAmounts.getD []).map (fun kv => kv.2)).sum :=
      lt_of_le_of_ne hT (Ne.symm hT0)
    simp only [hTpos, if_true, ite_true]
    unfold userItemAmountOf itemizedTotalOf safeNumber
    ring

/-- Concrete custom-split bill on which the stored grand total (200)
differs from the itemized total (100): tax 10%, no tips. -/
def c7Bill : Bill :=
  { id := "C7", description := "Brunch", amount := some 200, paidBy := "P",
    paidByName := none, splitAmong := ["P"],
    splitType := SplitType.custom, itemizedAmounts := some [("P", 100)],
    taxPercentage := some 10, tipsPercentage := none,
    paidStatus := [("P", true)], pendingStatus := [] }

/-- C7 counterexample: on `c7Bill` the balance aggregator computes a share
of 110 for P (tax proportioned over the itemized total), while the
bill-detail copy embedded in `AddBillPage.tsx` computes 120 (it derives the
tax amount from `bill.amount` instead of the itemized total), so the
calculator copies do not agree on every custom-split snapshot. -/
theorem C7_addbill_custom_counterexample :
    ("P", (120 : ℚ)) ∈ addBillCalculateAmounts c7Bill ∧
    calculateUserShare c7Bill "P" = 110 ∧ ((110 : ℚ) ≠ 120) := by
  refine ⟨?_, ?_, by norm_num⟩
  · unfold addBillCalculateAmounts
    rw [if_neg (by decide)]
    rw [mem_map_pair]
    refine ⟨by decide, ?_⟩
    norm_num [addBillCustomShare, c7Bill, lookupKey, safeNumber]
  · rw [calculateUserShare_custom c7Bill rfl "P"]
    norm_num [itemizedTotalOf, userItemAmountOf, safeNumber, lookupKey, c7Bill]

/-- C7 amended: the aggregator share is re-derived identically by the
`BillDetailPage` copy for equal splits (numeric amount) and for custom
splits with a non-negative itemized total, and by the `AddBillPage`
bill-detail copy for equal splits; the `AddBillPage` copy's custom-split
branch derives tax/tips from `bill.amount` rather than the itemized total
and is excluded (it differs whenever the two bases differ, see the
counterexample). -/
theorem C7_share_equivalence_amended :
    (∀ (bill : Bill) (a : ℚ) (p : String) (x : ℚ),
        bill.splitType = SplitType.equal → bill.amount = some a →
        (p, x) ∈ detailCalculateAmounts bill →
        x = calculateUserShare bill p) ∧
    (∀ (bill : Bill) (p : String) (x : ℚ),
        bill.splitType = SplitType.custom → 0 ≤ itemizedTotalOf bill →
        (p, x) ∈ detailCalculateAmounts bill →
        x = calculateUserShare bill p) ∧
    (∀ (bill : Bill) (a : ℚ) (p : String) (x : ℚ),
        bill.splitType = SplitType.equal → bill.amount = some a →
        (p, x) ∈ addBillCalculateAmounts bill →
        x = calculateUserShare bill p) := by
  have hlen : ∀ (bill : Bill) (p : String), p ∈ bill.splitAmong →
      bill.splitAmong.length ≠ 0 := by
    intro bill p hp h0
    rw [List.length_eq_zero] at h0
    rw [h0] at hp
    exact List.not_mem_nil p hp
  refine ⟨?_, ?_, ?_⟩
  · intro bill a p x heq ha hmem
    unfold detailCalculateAmounts at hmem
    rw [if_pos heq, mem_map_pair] at hmem
    rw [hmem.2]
    exact detailEqualShare_eq bill p heq (hlen bill p hmem.1)
  · intro bill p x hcust hT hmem
    unfold detailCalculateAmounts at hmem
    rw [if_neg (by rw [hcust]; decide), mem_map_pair] at hmem
    rw [hmem.2]
    exact detailCustomShare_eq bill p hcust hT
  · intro bill a p x heq ha hmem
    unfold addBillCalculateAmounts at hmem
    rw [if_pos heq, mem_map_pair] at hmem
    rw [hmem.2]
    exact detailEqualShare_eq bill p heq (hlen bill p hmem.1)

/-- Concrete equal-split bill shared by all three calculator copies. -/
def c7EqBill : Bill :=
  { id := "C7e", description := "Taxi", amount := some 60, paidBy := "P",
    paidByName := none, splitAmong := ["P", "Q", "R"],
    splitType := SplitType.equal, itemizedAmounts := none,
    taxPercentage := none, tipsPercentage := none,
    paidStatus := [("P", true)], pendingStatus := [] }

/-- C7 witness: on a concrete equal split of 60 among three people both
in-view copies report 20 for Q, which equals the aggregator share, and on
the concrete custom bill `c2Bill` the bill-detail copy reproduces the
aggregator share of 46 for P. -/
theorem C7_share_equivalence_amended_witness :
    calculateUserShare c7EqBill "Q" = 20 ∧
    ("Q", (20 : ℚ)) ∈ detailCalculateAmounts c7EqBill ∧
    ("Q", (20 : ℚ)) ∈ addBillCalculateAmounts c7EqBill ∧
    ("P", (46 : ℚ)) ∈ detailCalculateAmounts c2Bill ∧
    calculateUserShare c2Bill "P" = 46 := by
  have heq : c7EqBill.splitType = SplitType.equal := rfl
  have hd : ("Q", (20 : ℚ)) ∈ detailCalculateAmounts c7EqBill := by
    unfold detailCalculateAmounts
    rw [if_pos heq, mem_map_pair]
    exact ⟨by decide, by norm_num [detailEqualShare, c7EqBill, safeNumber]⟩
  have ha : ("Q", (20 : ℚ)) ∈ addBillCalculateAmounts c7EqBill := by
    unfold addBillCalculateAmounts
    rw [if_pos heq, mem_map_pair]
    exact ⟨by decide, by norm_num [detailEqualShare, c7EqBill, safeNumber]⟩
  have hc : ("P", (46 : ℚ)) ∈ detailCalculateAmounts c2Bill := by
    unfold detailCalculateAmounts
    rw [if_neg (by decide), mem_map_pair]
    refine ⟨by decide, ?_⟩
    norm_num [detailCustomShare, c2Bill, safeNumber, lookupKey]
  refine ⟨?_, hd, ha, hc, ?_⟩
  · exact (C7_share_equivalence_amended.1 c7EqBill 60 "Q" 20 heq rfl hd).symm
  · exact (C7_share_equivalence_amended.2.1 c2Bill "P" 46 rfl
      (by norm_num [itemizedTotalOf, c2Bill]) hc).symm

/-- Lookup after folding a keyed write over a participant list: every
listed key holds the written value (which depends only on the key, so
duplicates are harmless), every other key is untouched. -/
theorem lookupKey_foldl_setKey {α : Type} (g : String → α) :
    ∀ (l : List String) (m0 : List (String × α)) (p : String),
      lookupKey (l.foldl (fun m uid => setKey m uid (g uid)) m0) p =
        if p ∈ l then some (g p) else lookupKey m0 p := by
  intro l
  induction l with
  | nil => intro m0 p; simp
  | cons a t ih =>
      intro m0 p
      rw [List.foldl_cons, ih]
      by_cases hpt : p ∈ t
      · rw [if_pos hpt, if_pos (List.mem_cons_of_mem a hpt)]
      · by_cases hpa : p = a
        · subst hpa
          rw [if_neg hpt, if_pos (List.mem_cons_self p t)]
          simp [setKey, lookupKey]
        · rw [if_neg hpt, if_neg (by
            intro h
            rcases List.mem_cons.mp h with h1 | h2
            · exact hpa h1
            · exact hpt h2)]
          simp [setKey, lookupKey, hpa]

/-- C8: bill creation fails with the unauthenticated error when no acting
user is established; otherwise the written bill's status maps satisfy
`paidStatus[p] = (p == paidBy)` and `pendingStatus[p] = false` for every
participant, so a payer listed among the participants starts confirmed
paid. -/
theorem C8_createBill_init (user payerLookup : Option String)
    (billData : BillData) :
    (user = none → createBill user payerLookup billData =
      Except.error "User not authenticated") ∧
    (∀ (u : String) (b : CreatedBill),
      createBill (some u) payerLookup billData = Except.ok b →
      (∀ p ∈ billData.splitAmong,
        lookupKey b.paidStatus p = some (p == billData.paidBy) ∧
        lookupKey b.pendingStatus p = some false) ∧
      (billData.paidBy ∈ billData.splitAmong →
        lookupKey b.paidStatus billData.paidBy = some true)) := by
  constructor
  · rintro rfl
    rfl
  · intro u b hb
    unfold createBill at hb
    rw [Except.ok.injEq] at hb
    subst hb
    constructor
    · intro p hp
      constructor
      · rw [lookupKey_foldl_setKey (fun uid => uid == billData.paidBy)
            billData.splitAmong [] p]
        rw [if_pos hp]
      · rw [lookupKey_foldl_setKey (fun _ => false) billData.splitAmong [] p]
        rw [if_pos hp]
    · intro hpb
      rw [lookupKey_foldl_setKey (fun uid => uid == billData.paidBy)
          billData.splitAmong [] billData.paidBy]
      rw [if_pos hpb]
      simp

/-- Concrete creation input: U pays, split between U and F. -/
def c8Data : BillData :=
  { description := "groceries", amount := 10, paidBy := "U",
    splitAmong := ["U", "F"], splitType := SplitType.equal,
    itemizedAmounts := none, taxPercentage := none, tipsPercentage := none }

/-- The document `createBill` writes for `c8Data` under an authenticated
user and a failed payer-name lookup. -/
def c8Created : CreatedBill :=
  { description := "groceries", amount := 10, paidBy := "U",
    paidByName := "Unknown", splitAmong := ["U", "F"],
    splitType := SplitType.equal, itemizedAmounts := none,
    taxPercentage := none, tipsPercentage := none,
    paidStatus := [("F", false), ("U", true)],
    pendingStatus := [("F", false), ("U", false)] }

/-- C8 witness: creation without an acting user fails with the
unauthenticated error, and the concrete created document has the payer
confirmed paid, the other participant unpaid, and nobody pending. -/
theorem C8_createBill_init_witness :
    createBill none none c8Data = Except.error "User not authenticated" ∧
    lookupKey c8Created.paidStatus "U" = some true ∧
    lookupKey c8Created.paidStatus "F" = some false ∧
    lookupKey c8Created.pendingStatus "U" = some false ∧
    lookupKey c8Created.pendingStatus "F" = some false := by
  have h1 := (C8_createBill_init none none c8Data).1 rfl
  have h2 := (C8_createBill_init (some "U") none c8Data).2 "U" c8Created rfl
  refine ⟨h1, h2.2 (by decide), ?_, ?_, ?_⟩
  · exact ((h2.1 "F" (by decide)).1).trans (by decide)
  · exact (h2.1 "U" (by decide)).2
  · exact (h2.1 "F" (by decide)).2

/-- Concrete bill awaiting confirmation: F1 has self-reported payment. -/
def c9Bill : Bill :=
  { id := "C9", description := "Pizza", amount := some 24, paidBy := "U",
    paidByName := none, splitAmong := ["U", "F1", "F2"],
    splitType := SplitType.equal, itemizedAmounts := none,
    taxPercentage := none, tipsPercentage := none,
    paidStatus := [("U", true)], pendingStatus := [("F1", true)] }

/-- C9: the confirm-paid operation submits one update holding both full
replacement maps, in which the confirmed participant's paid flag is set
and pending flag cleared together, while every other participant's entries
read back exactly as in the bill snapshot. -/
theorem C9_confirmPaid_atomic_frame (bill : Bill) (personId : String) :
    (confirmPaidUpdate bill personId).paidStatus =
      setKey bill.paidStatus personId true ∧
    (confirmPaidUpdate bill personId).pendingStatus =
      setKey bill.pendingStatus personId false ∧
    lookupKey (confirmPaidUpdate bill personId).paidStatus personId = some true ∧
    lookupKey (confirmPaidUpdate bill personId).pendingStatus personId = some false ∧
    (∀ q : String, q ≠ personId →
      lookupKey (confirmPaidUpdate bill personId).paidStatus q =
        lookupKey bill.paidStatus q ∧
      lookupKey (confirmPaidUpdate bill personId).pendingStatus q =
        lookupKey bill.pendingStatus q) := by
  refine ⟨rfl, rfl, ?_, ?_, ?_⟩
  · simp [confirmPaidUpdate, setKey, lookupKey]
  · simp [confirmPaidUpdate, setKey, lookupKey]
  · intro q hq
    constructor
    · simp [confirmPaidUpdate, setKey, lookupKey, hq]
    · simp [confirmPaidUpdate, setKey, lookupKey, hq]

/-- C9 witness: confirming F1 on the concrete pending bill sets F1 paid
and clears F1 pending in the one submitted payload, and leaves the payer
U's entries in both maps unchanged. -/
theorem C9_confirmPaid_atomic_frame_witness :
    lookupKey (confirmPaidUpdate c9Bill "F1").paidStatus "F1" = some true ∧
    lookupKey (confirmPaidUpdate c9Bill "F1").pendingStatus "F1" = some false ∧
    lookupKey (confirmPaidUpdate c9Bill "F1").paidStatus "U" =
      lookupKey c9Bill.paidStatus "U" ∧
    lookupKey (confirmPaidUpdate c9Bill "F1").pendingStatus "U" =
      lookupKey c9Bill.pendingStatus "U" := by
  have h := C9_confirmPaid_atomic_frame c9Bill "F1"
  exact ⟨h.2.2.1, h.2.2.2.1, (h.2.2.2.2 "U" (by decide)).1,
    (h.2.2.2.2 "U" (by decide)).2⟩

/-- A successful association-list lookup returns a listed pair. -/
theorem lookupKey_mem {α : Type} :
    ∀ (l : List (String × α)) (key : String) (v : α),
      lookupKey l key = some v → (key, v) ∈ l := by
  intro l
  induction l with
  | nil =>
      intro k v h
      exact absurd h (by simp [lookupKey])
  | cons kv rest ih =>
      intro k v h
      rcases kv with ⟨k1, v1⟩
      unfold lookupKey at h
      by_cases hk : k = k1
      · rw [if_pos hk] at h
        rcases Option.some.inj h with rfl
        subst hk
        exact List.mem_cons_self (k, v1) rest
      · rw [if_neg hk] at h
        exact List.mem_cons_of_mem _ (ih k v h)

/-- Concrete equal-split bill with a negative stored amount. -/
def c10Bill : Bill :=
  { id := "C10", description := "Refund", amount := some (-90), paidBy := "U",
    paidByName := none, splitAmong := ["U", "F1", "F2"],
    splitType := SplitType.equal, itemizedAmounts := none,
    taxPercentage := none, tipsPercentage := none,
    paidStatus := [("U", true)], pendingStatus := [] }

/-- C10 counterexample: a bill whose stored amount is the (perfectly
numeric) value -90 yields the share -30, which is below 0, so the share
calculator's result is not non-negative for every bill. -/
theorem C10_negative_share_counterexample :
    calculateUserShare c10Bill "U" = -30 ∧
    ¬(0 ≤ calculateUserShare c10Bill "U") := by
  have h : calculateUserShare c10Bill "U" = -30 := by
    rw [calculateUserShare_equal c10Bill rfl "U"]
    norm_num [c10Bill, safeNumber]
  rw [h]
  norm_num

/-- C10 amended: the share calculator is a total function on bill records;
a missing (or non-numeric, i.e. `NaN`-coercing) amount, tax percentage,
tip percentage or itemized-amounts field behaves exactly as the zero (or
empty) value; and the result is non-negative for every bill whose coerced
amount, itemized values and percentages are non-negative — a negative
stored amount can produce a negative share (see the counterexample). -/
theorem C10_total_nonneg_amended (bill : Bill) (p : String) :
    (calculateUserShare { bill with amount := none } p =
       calculateUserShare { bill with amount := some 0 } p) ∧
    (calculateUserShare { bill with taxPercentage := none } p =
       calculateUserShare { bill with taxPercentage := some 0 } p) ∧
    (calculateUserShare { bill with tipsPercentage := none } p =
       calculateUserShare { bill with tipsPercentage := some 0 } p) ∧
    (calculateUserShare { bill with itemizedAmounts := none } p =
       calculateUserShare { bill with itemizedAmounts := some [] } p) ∧
    (0 ≤ safeNumber bill.amount →
     (∀ kv ∈ bill.itemizedAmounts.getD [], 0 ≤ kv.2) →
     0 ≤ safeNumber bill.taxPercentage →
     0 ≤ safeNumber bill.tipsPercentage →
     0 ≤ calculateUserShare bill p) := by
  refine ⟨rfl, rfl, rfl, rfl, ?_⟩
  intro hA hIt hTax hTip
  cases hsplit : bill.splitType with
  | equal =>
      rw [calculateUserShare_equal bill hsplit p]
      exact div_nonneg hA (Nat.cast_nonneg _)
  | custom =>
      rw [calculateUserShare_custom bill hsplit p]
      have hT : 0 ≤ itemizedTotalOf bill := by
        apply List.sum_nonneg
        intro x hx
        rcases List.mem_map.mp hx with ⟨kv, hkv, rfl⟩
        exact hIt kv hkv
      have hU : 0 ≤ userItemAmountOf bill p := by
        unfold userItemAmountOf safeNumber
        cases hl : lookupKey (bill.itemizedAmounts.getD []) p with
        | none => simp
        | some v =>
            simp only [Option.getD_some]
            exact hIt (p, v) (lookupKey_mem _ _ _ hl)
      by_cases hT0 : itemizedTotalOf bill = 0
      · rw [if_pos hT0]
        exact hU
      · rw [if_neg hT0]
        exact add_nonneg hU (mul_nonneg (div_nonneg hU hT)
          (add_nonneg (div_nonneg (mul_nonneg hT hTax) (by norm_num))
            (div_nonneg (mul_nonneg hT hTip) (by norm_num))))

/-- Concrete well-formed custom bill for the totality/non-negativity
witness. -/
def c10GoodBill : Bill :=
  { id := "C10g", description := "Dinner", amount := some 115, paidBy := "Q",
    paidByName := none, splitAmong := ["P", "Q"],
    splitType := SplitType.custom,
    itemizedAmounts := some [("P", 40), ("Q", 60)],
    taxPercentage := some 10, tipsPercentage := some 5,
    paidStatus := [], pendingStatus := [] }

/-- C10 witness: on the concrete custom bill with non-negative fields the
missing-amount variant coincides with the zero-amount variant and the
share of P is non-negative. -/
theorem C10_total_nonneg_amended_witness :
    calculateUserShare { c10GoodBill with amount := none } "P" =
      calculateUserShare { c10GoodBill with amount := some 0 } "P" ∧
    0 ≤ calculateUserShare c10GoodBill "P" := by
  have h := C10_total_nonneg_amended c10GoodBill "P"
  refine ⟨h.1, h.2.2.2.2 ?_ ?_ ?_ ?_⟩
  · norm_num [c10GoodBill, safeNumber]
  · intro kv hkv
    rcases List.mem_cons.mp hkv with rfl | hkv2
    · norm_num
    · rcases List.mem_cons.mp hkv2 with rfl | hkv3
      · norm_num
      · exact absurd hkv3 (List.not_mem_nil kv)
  · norm_num [c10GoodBill, safeNumber]
  · norm_num [c10GoodBill, safeNumber]
